import Mathlib

/-!
# Boolean-field lint rule and xmind topic construction

A shallow embedding of

* `pkg/sqllint/linters/boolean_field_linter.go` (`BooleanFieldLinter.Enter`, `Leave`, `Error`),
* `pkg/xmind/xml.go` (`XMLTopic.addChildTopic`, `XMLTopic.AddAttachedChildTopic`),

followed by the properties established about them.

Go strings are embedded as Lean `String`s; the rule only compares them with ASCII
literals, for which comparing characters and comparing bytes agree.  A Go method with a
pointer receiver becomes a function that takes the receiver's value and returns the
updated value together with the method's results.
-/

namespace script

/-- Modelled from the spec: the `script.Script` type is not among the sources.  The spec
describes it as the full source text plus a read cursor; the rule only stores it and hands
it over to `linterror.New`. -/
structure Script where
  data : String
  cursor : Nat
  deriving DecidableEq, Repr

end script

namespace linterror

/-- Modelled from the spec: the `linterror` package is not among the sources.  A lint
error carries the originating script, the text window to search, the rule message and
the line predicate.  The predicate built by the rule is always the closure
`func(line) bool { return bytes.Contains(line, []byte(colName)) }`, which is represented
by the variable it captures, `colName`. -/
structure LintError where
  s : script.Script
  stmt : String
  lint : String
  colName : String
  deriving DecidableEq, Repr

/-- Modelled from the spec: `linterror.New(script, text, message, predicate)` builds the
error value from its arguments; the last argument is the column name captured by the
predicate closure. -/
def New (s : script.Script) (text : String) (lint : String) (colName : String) : LintError :=
  { s := s, stmt := text, lint := lint, colName := colName }

end linterror

namespace strings

/-- Go's `strings.HasPrefix(s, p)`: `s` begins with `p`. -/
def HasPrefix (s p : String) : Bool :=
  p.data.isPrefixOf s.data

end strings

namespace ast

/-- Modelled from the spec: `ast.ColumnDef` belongs to the external parser.  A column
definition node is represented by the three things the rule observes of it: its own text
(`Text()`), and the name and the normalised type that the extractors return for it. -/
structure ColumnDef where
  text : String
  name : String
  tp : String
  deriving DecidableEq, Repr

/-- Modelled from the spec: `ast.Node` is an interface of the external parser.  The rule
observes a node's text and whether it is a `*ast.ColumnDef`; every other kind of node is
represented by its text alone. -/
inductive Node where
  | columnDef (col : ColumnDef)
  | other (text : String)
  deriving DecidableEq, Repr

/-- The node's own text, `in.Text()`. -/
def Node.Text : Node → String
  | .columnDef col => col.text
  | .other text => text

end ast

namespace ddlconv

/-- Modelled from the spec: `ddlconv.ExtractColName` is not among the sources; it returns
the column name carried by the column-definition node. -/
def ExtractColName (col : ast.ColumnDef) : String := col.name

/-- Modelled from the spec: `ddlconv.ExtractColType` is not among the sources; it returns
the normalised type tag carried by the column-definition node. -/
def ExtractColType (col : ast.ColumnDef) : String := col.tp

end ddlconv

namespace linters

/-- Modelled from the spec: `baseLinter` is declared in a file that is not among the
sources.  It holds the script reference, the recorded error (`nil` is `none`) and the
text checkpoint, the three fields `BooleanFieldLinter` uses as `l.s`, `l.err`, `l.text`. -/
structure baseLinter where
  s : script.Script
  err : Option linterror.LintError
  text : String
  deriving DecidableEq, Repr

/-- Modelled from the spec: `newBaseLinter(script)` gives a rule instance that has
recorded neither a text window nor an error. -/
def newBaseLinter (s : script.Script) : baseLinter :=
  { s := s, err := none, text := "" }

/-- The rule type: `type BooleanFieldLinter struct { baseLinter }`. -/
structure BooleanFieldLinter extends baseLinter
  deriving DecidableEq, Repr

/-- The constructor `NewBooleanFieldLinter`. -/
def NewBooleanFieldLinter (s : script.Script) : BooleanFieldLinter :=
  { tobaseLinter := newBaseLinter s }

/-- The message of the violation "boolean-ish type without linking-verb name". -/
def msgLinkingVerb : String :=
  "boolean field should start with linking-verb, e.g. is_deleted, has_child"

/-- The message of the violation "linking-verb name without boolean-ish type". -/
def msgBooleanType : String :=
  "boolean field type should be tinyint(1) or boolean"

/-- The method `BooleanFieldLinter.Enter`.  The result is the updated receiver, the
returned node and the returned boolean. -/
def BooleanFieldLinter.Enter (l : BooleanFieldLinter) (node : ast.Node) :
    BooleanFieldLinter × ast.Node × Bool :=
  let l : BooleanFieldLinter :=
    if l.text == "" || node.Text != "" then { l with text := node.Text } else l
  match node with
  | .other _ => (l, node, false)
  | .columnDef col =>
    let colName := ddlconv.ExtractColName col
    let colType := ddlconv.ExtractColType col
    -- the statements after the first `switch`
    let rest : BooleanFieldLinter × ast.Node × Bool :=
      if strings.HasPrefix colName "is_" || strings.HasPrefix colName "has_" then
        if colType == "bool" || colType == "boolean" || colType == "tinyint(1)" || colType == "bit" then
          (l, node, true)
        else
          ({ l with err := some (linterror.New l.s l.text msgBooleanType colName) }, node, true)
      else
        (l, node, true)
    if colType == "bool" || colType == "boolean" || colType == "tinyint(1)" || colType == "bit" then
      if !(strings.HasPrefix colName "is_" || strings.HasPrefix colName "has_") then
        ({ l with err := some (linterror.New l.s l.text msgLinkingVerb colName) }, node, true)
      else
        rest
    else
      rest

/-- The method `BooleanFieldLinter.Leave`; it returns the receiver as it leaves it, the
node and the boolean `l.err == nil`. -/
def BooleanFieldLinter.Leave (l : BooleanFieldLinter) (node : ast.Node) :
    BooleanFieldLinter × ast.Node × Bool :=
  (l, node, l.err.isNone)

/-- The method `BooleanFieldLinter.Error`. -/
def BooleanFieldLinter.Error (l : BooleanFieldLinter) : Option linterror.LintError :=
  l.err

/-- The spec's "boolean-ish type": one of `bool`, `boolean`, `tinyint(1)`, `bit`. -/
def isBooleanType (ty : String) : Bool :=
  ty == "bool" || ty == "boolean" || ty == "tinyint(1)" || ty == "bit"

/-- The spec's "linking-verb name": the name starts with `is_` or with `has_`. -/
def hasLinkingVerb (name : String) : Bool :=
  strings.HasPrefix name "is_" || strings.HasPrefix name "has_"

/-- The checkpoint that `Enter` leaves: the node's text when the old checkpoint is empty
or the node's text is not, the old checkpoint otherwise. -/
def checkpointAfter (l : BooleanFieldLinter) (node : ast.Node) : String :=
  if l.text == "" || node.Text != "" then node.Text else l.text

end linters

namespace xmind

/-- The string type `XMLTopicType`. -/
abbrev XMLTopicType := String

/-- The value `TopicsTypeAttached`. -/
def TopicsTypeAttached : XMLTopicType := "attached"

mutual
/-- The struct `XMLTopic`; a nil `Children` pointer is `none`. -/
inductive XMLTopic where
  | mk (Title : String) (Children : Option XMLTopicChildren)
/-- The struct `XMLTopicChildren`; a nil `TypedTopics` pointer is `none`. -/
inductive XMLTopicChildren where
  | mk (TypedTopics : Option XMLTypedTopics)
/-- The struct `XMLTypedTopics`; the slice of topic pointers is the list of the topics
pointed at. -/
inductive XMLTypedTopics where
  | mk (Type_ : XMLTopicType) (Topics : List XMLTopic)
end

/-- Field `Title` of a topic. -/
def XMLTopic.Title : XMLTopic → String
  | .mk title _ => title

/-- Field `Children` of a topic. -/
def XMLTopic.Children : XMLTopic → Option XMLTopicChildren
  | .mk _ children => children

/-- Field `TypedTopics`. -/
def XMLTopicChildren.TypedTopics : XMLTopicChildren → Option XMLTypedTopics
  | .mk typed => typed

/-- Field `Type` of the typed topics. -/
def XMLTypedTopics.Type_ : XMLTypedTopics → XMLTopicType
  | .mk ty _ => ty

/-- Field `Topics` of the typed topics. -/
def XMLTypedTopics.Topics : XMLTypedTopics → List XMLTopic
  | .mk _ topics => topics

/-- The loop `for _, topic := range topics { if topic.Title == title { return topic } }`:
the position of the first topic with the given title, if there is one. -/
def findTitle (title : String) : List XMLTopic → Option Nat
  | [] => none
  | topic :: rest =>
    if topic.Title == title then some 0 else (findTitle title rest).map (· + 1)

/-- The method `XMLTopic.addChildTopic`.  The result is the updated receiver and the
position, in the receiver's `Children.TypedTopics.Topics`, of the topic whose pointer is
returned. -/
def XMLTopic.addChildTopic (t : XMLTopic) (title : String) (topicType : XMLTopicType)
    (ignoreIfExist : Bool) : XMLTopic × Nat :=
  let children : XMLTopicChildren :=
    match t.Children with
    | none => .mk none
    | some c => c
  let typed : XMLTypedTopics :=
    match children.TypedTopics with
    | none => .mk "" []
    | some tt => tt
  let typed : XMLTypedTopics := .mk topicType typed.Topics
  match (if ignoreIfExist then findTitle title typed.Topics else none) with
  | some i => (.mk t.Title (some (.mk (some typed))), i)
  | none =>
    let newTopic : XMLTopic := .mk title none
    (.mk t.Title (some (.mk (some (.mk typed.Type_ (typed.Topics ++ [newTopic]))))),
      typed.Topics.length)

/-- The topics under `t.Children.TypedTopics.Topics`; none when a pointer on the way is
nil. -/
def XMLTopic.childTopics (t : XMLTopic) : List XMLTopic :=
  match t.Children with
  | none => []
  | some c =>
    match c.TypedTopics with
    | none => []
    | some tt => tt.Topics

/-- The `type` attribute under `t.Children.TypedTopics`, when both pointers are set. -/
def XMLTopic.childType (t : XMLTopic) : Option XMLTopicType :=
  match t.Children with
  | none => none
  | some c =>
    match c.TypedTopics with
    | none => none
    | some tt => some tt.Type_

/-- The method `XMLTopic.AddAttachedChildTopic`; the variadic `ignoreIfExist ...bool` is
the list of the flags passed. -/
def XMLTopic.AddAttachedChildTopic (t : XMLTopic) (title : String)
    (ignoreIfExist : List Bool) : XMLTopic × Nat :=
  let ignore : Bool := if ignoreIfExist.length > 0 then true else false
  t.addChildTopic title TopicsTypeAttached ignore

end xmind

/-! ## Properties of the boolean-field rule -/

namespace linters

/-- The result of `Enter` on a column definition, by the class of its type and name. -/
theorem Enter_columnDef (l : BooleanFieldLinter) (col : ast.ColumnDef) :
    l.Enter (.columnDef col) =
      (({ s := l.s,
          err :=
            if isBooleanType col.tp && !hasLinkingVerb col.name then
              some (linterror.New l.s (checkpointAfter l (.columnDef col)) msgLinkingVerb col.name)
            else if hasLinkingVerb col.name && !isBooleanType col.tp then
              some (linterror.New l.s (checkpointAfter l (.columnDef col)) msgBooleanType col.name)
            else l.err,
          text := checkpointAfter l (.columnDef col) } : BooleanFieldLinter),
        ast.Node.columnDef col, true) := by
  unfold BooleanFieldLinter.Enter isBooleanType hasLinkingVerb checkpointAfter
  simp only [ddlconv.ExtractColName, ddlconv.ExtractColType]
  generalize (col.tp == "bool" || col.tp == "boolean" || col.tp == "tinyint(1)" || col.tp == "bit") = b
  generalize (strings.HasPrefix col.name "is_" || strings.HasPrefix col.name "has_") = v
  generalize (l.text == "" || ast.Node.Text (.columnDef col) != "") = c
  cases b <;> cases v <;> cases c <;> rfl

/-- The result of `Enter` on a node that is not a column definition. -/
theorem Enter_other (l : BooleanFieldLinter) (text : String) :
    l.Enter (.other text) =
      (({ s := l.s, err := l.err, text := checkpointAfter l (.other text) } : BooleanFieldLinter),
        ast.Node.other text, false) := by
  unfold BooleanFieldLinter.Enter checkpointAfter
  generalize (l.text == "" || ast.Node.Text (.other text) != "") = c
  cases c <;> rfl

end linters

namespace linters

/-- C1: a column definition whose extracted type is one of `bool`, `boolean`,
`tinyint(1)`, `bit` and whose extracted name starts with neither `is_` nor `has_` makes
`Enter`, on a fresh rule instance, record a violation: `Error()` is non-nil afterwards and
its message is the linking-verb message, not the wrong-type message. -/
theorem Enter_booleanType_without_linkingVerb (s : script.Script) (col : ast.ColumnDef)
    (htype : ddlconv.ExtractColType col = "bool" ∨ ddlconv.ExtractColType col = "boolean" ∨
      ddlconv.ExtractColType col = "tinyint(1)" ∨ ddlconv.ExtractColType col = "bit")
    (hname : strings.HasPrefix (ddlconv.ExtractColName col) "is_" = false ∧
      strings.HasPrefix (ddlconv.ExtractColName col) "has_" = false) :
    ((NewBooleanFieldLinter s).Enter (.columnDef col)).1.Error ≠ none ∧
    ((NewBooleanFieldLinter s).Enter (.columnDef col)).1.Error.map (fun e => e.lint) =
      some "boolean field should start with linking-verb, e.g. is_deleted, has_child" ∧
    ((NewBooleanFieldLinter s).Enter (.columnDef col)).1.Error.map (fun e => e.lint) ≠
      some "boolean field type should be tinyint(1) or boolean" := by
  have hb : isBooleanType col.tp = true := by
    simp only [ddlconv.ExtractColType] at htype
    rcases htype with h | h | h | h <;> rw [h] <;> decide
  have hv : hasLinkingVerb col.name = false := by
    simp only [ddlconv.ExtractColName] at hname
    simp [hasLinkingVerb, hname.1, hname.2]
  rw [Enter_columnDef]
  simp only [BooleanFieldLinter.Error, hb, hv]
  refine ⟨by simp, by simp [linterror.New, msgLinkingVerb], ?_⟩
  show some msgLinkingVerb ≠ some "boolean field type should be tinyint(1) or boolean"
  decide

/-- Witness of C1 at the column `enabled tinyint(1)`. -/
theorem Enter_booleanType_without_linkingVerb_witness :
    ((NewBooleanFieldLinter ⟨"CREATE TABLE t (enabled tinyint(1));", 0⟩).Enter
        (.columnDef ⟨"", "enabled", "tinyint(1)"⟩)).1.Error ≠ none ∧
    ((NewBooleanFieldLinter ⟨"CREATE TABLE t (enabled tinyint(1));", 0⟩).Enter
        (.columnDef ⟨"", "enabled", "tinyint(1)"⟩)).1.Error.map (fun e => e.lint) =
      some "boolean field should start with linking-verb, e.g. is_deleted, has_child" ∧
    ((NewBooleanFieldLinter ⟨"CREATE TABLE t (enabled tinyint(1));", 0⟩).Enter
        (.columnDef ⟨"", "enabled", "tinyint(1)"⟩)).1.Error.map (fun e => e.lint) ≠
      some "boolean field type should be tinyint(1) or boolean" :=
  Enter_booleanType_without_linkingVerb ⟨"CREATE TABLE t (enabled tinyint(1));", 0⟩
    ⟨"", "enabled", "tinyint(1)"⟩ (by decide) (by decide)

/-- C2: a column definition whose extracted name starts with `is_` or `has_` and whose
extracted type is none of `bool`, `boolean`, `tinyint(1)`, `bit` makes `Enter`, on a fresh
rule instance, record a violation: `Error()` is non-nil afterwards and its message is the
wrong-type message. -/
theorem Enter_linkingVerb_without_booleanType (s : script.Script) (col : ast.ColumnDef)
    (hname : strings.HasPrefix (ddlconv.ExtractColName col) "is_" = true ∨
      strings.HasPrefix (ddlconv.ExtractColName col) "has_" = true)
    (htype : ddlconv.ExtractColType col ≠ "bool" ∧ ddlconv.ExtractColType col ≠ "boolean" ∧
      ddlconv.ExtractColType col ≠ "tinyint(1)" ∧ ddlconv.ExtractColType col ≠ "bit") :
    ((NewBooleanFieldLinter s).Enter (.columnDef col)).1.Error ≠ none ∧
    ((NewBooleanFieldLinter s).Enter (.columnDef col)).1.Error.map (fun e => e.lint) =
      some "boolean field type should be tinyint(1) or boolean" := by
  have hb : isBooleanType col.tp = false := by
    simp only [ddlconv.ExtractColType] at htype
    simp [isBooleanType, htype.1, htype.2.1, htype.2.2.1, htype.2.2.2]
  have hv : hasLinkingVerb col.name = true := by
    simp only [ddlconv.ExtractColName] at hname
    rcases hname with h | h <;> simp [hasLinkingVerb, h]
  rw [Enter_columnDef]
  simp only [BooleanFieldLinter.Error, hb, hv]
  exact ⟨by simp, by simp [linterror.New, msgBooleanType]⟩

/-- Witness of C2 at the column `is_deleted int`, whose extracted type is `int(11)`. -/
theorem Enter_linkingVerb_without_booleanType_witness :
    ((NewBooleanFieldLinter ⟨"CREATE TABLE t (is_deleted int);", 0⟩).Enter
        (.columnDef ⟨"", "is_deleted", "int(11)"⟩)).1.Error ≠ none ∧
    ((NewBooleanFieldLinter ⟨"CREATE TABLE t (is_deleted int);", 0⟩).Enter
        (.columnDef ⟨"", "is_deleted", "int(11)"⟩)).1.Error.map (fun e => e.lint) =
      some "boolean field type should be tinyint(1) or boolean" :=
  Enter_linkingVerb_without_booleanType ⟨"CREATE TABLE t (is_deleted int);", 0⟩
    ⟨"", "is_deleted", "int(11)"⟩ (by decide) (by decide)

/-- C3: a column definition whose extracted name starts with `is_` or `has_` and whose
extracted type is one of `bool`, `boolean`, `tinyint(1)`, `bit` makes `Enter`, on a fresh
rule instance, record no violation: `Error()` is nil afterwards. -/
theorem Enter_linkingVerb_with_booleanType (s : script.Script) (col : ast.ColumnDef)
    (hname : strings.HasPrefix (ddlconv.ExtractColName col) "is_" = true ∨
      strings.HasPrefix (ddlconv.ExtractColName col) "has_" = true)
    (htype : ddlconv.ExtractColType col = "bool" ∨ ddlconv.ExtractColType col = "boolean" ∨
      ddlconv.ExtractColType col = "tinyint(1)" ∨ ddlconv.ExtractColType col = "bit") :
    ((NewBooleanFieldLinter s).Enter (.columnDef col)).1.Error = none := by
  have hb : isBooleanType col.tp = true := by
    simp only [ddlconv.ExtractColType] at htype
    rcases htype with h | h | h | h <;> rw [h] <;> decide
  have hv : hasLinkingVerb col.name = true := by
    simp only [ddlconv.ExtractColName] at hname
    rcases hname with h | h <;> simp [hasLinkingVerb, h]
  rw [Enter_columnDef]
  simp [BooleanFieldLinter.Error, hb, hv, NewBooleanFieldLinter, newBaseLinter]

/-- Witness of C3 at the column `has_child tinyint(1)`. -/
theorem Enter_linkingVerb_with_booleanType_witness :
    ((NewBooleanFieldLinter ⟨"CREATE TABLE t (has_child tinyint(1));", 0⟩).Enter
        (.columnDef ⟨"", "has_child", "tinyint(1)"⟩)).1.Error = none :=
  Enter_linkingVerb_with_booleanType ⟨"CREATE TABLE t (has_child tinyint(1));", 0⟩
    ⟨"", "has_child", "tinyint(1)"⟩ (by decide) (by decide)

/-- C5, as stated, fails: a rule instance that holds the wrong-type violation of
`is_deleted int` (extracted type `int(11)`) and then enters the violating column
`enabled tinyint(1)` no longer reports the first violation, it reports the one of
`enabled`. -/
theorem Enter_overwrites_error_counterexample :
    ((NewBooleanFieldLinter ⟨"", 0⟩).Enter (.columnDef ⟨"", "is_deleted", "int(11)"⟩)).1.Error =
      some (linterror.New ⟨"", 0⟩ "" "boolean field type should be tinyint(1) or boolean"
        "is_deleted") ∧
    ((((NewBooleanFieldLinter ⟨"", 0⟩).Enter (.columnDef ⟨"", "is_deleted", "int(11)"⟩)).1.Enter
        (.columnDef ⟨"", "enabled", "tinyint(1)"⟩)).1.Error ≠
      ((NewBooleanFieldLinter ⟨"", 0⟩).Enter (.columnDef ⟨"", "is_deleted", "int(11)"⟩)).1.Error) ∧
    (((NewBooleanFieldLinter ⟨"", 0⟩).Enter (.columnDef ⟨"", "is_deleted", "int(11)"⟩)).1.Enter
        (.columnDef ⟨"", "enabled", "tinyint(1)"⟩)).1.Error =
      some (linterror.New ⟨"", 0⟩ ""
        "boolean field should start with linking-verb, e.g. is_deleted, has_child" "enabled") := by
  decide

/-- C5, amended: for every rule instance, in particular one that already holds a recorded
error, and every node, `Enter` leaves the recorded error unchanged unless the node is
itself a violating column definition; on a violating column definition the recorded error
is replaced by the violation of that node, built on the updated checkpoint. -/
theorem Enter_error_after (l : BooleanFieldLinter) (node : ast.Node) :
    (l.Enter node).1.Error =
      match node with
      | .other _ => l.Error
      | .columnDef col =>
        if isBooleanType (ddlconv.ExtractColType col) &&
            !hasLinkingVerb (ddlconv.ExtractColName col) then
          some (linterror.New l.s (l.Enter node).1.text
            "boolean field should start with linking-verb, e.g. is_deleted, has_child"
            (ddlconv.ExtractColName col))
        else if hasLinkingVerb (ddlconv.ExtractColName col) &&
            !isBooleanType (ddlconv.ExtractColType col) then
          some (linterror.New l.s (l.Enter node).1.text
            "boolean field type should be tinyint(1) or boolean" (ddlconv.ExtractColName col))
        else l.Error := by
  cases node with
  | other text => rw [Enter_other]; rfl
  | columnDef col => rw [Enter_columnDef]; rfl

/-- C6, as stated, fails: on the violating column `enabled tinyint(1)` a fresh rule
instance records a violation and `Enter` returns the boolean `true`, not `false`. -/
theorem Enter_violation_returns_true_counterexample :
    ((NewBooleanFieldLinter ⟨"", 0⟩).Enter
        (.columnDef ⟨"", "enabled", "tinyint(1)"⟩)).1.Error ≠ none ∧
    ((NewBooleanFieldLinter ⟨"", 0⟩).Enter
        (.columnDef ⟨"", "enabled", "tinyint(1)"⟩)).2.2 ≠ false ∧
    ((NewBooleanFieldLinter ⟨"", 0⟩).Enter (.other "")).2.2 = false := by
  decide

/-- C6, amended: for every column-definition node, hence for every one on which `Enter`
records a violation (either direction), the boolean that `Enter` returns is `true`; it is
`false` for the nodes that are not column definitions. -/
theorem Enter_returned_bool (l : BooleanFieldLinter) (node : ast.Node) :
    (l.Enter node).2.2 =
      match node with
      | .columnDef _ => true
      | .other _ => false := by
  cases node with
  | other text => rw [Enter_other]
  | columnDef col => rw [Enter_columnDef]

/-- C7: on a node that is not a column definition `Enter` returns that same node with the
boolean `false` and leaves the recorded error (and the script) unchanged; of the rule state
only the text checkpoint may differ. -/
theorem Enter_not_columnDef (l : BooleanFieldLinter) (node : ast.Node)
    (hnode : ∀ col : ast.ColumnDef, node ≠ .columnDef col) :
    (l.Enter node).2.1 = node ∧ (l.Enter node).2.2 = false ∧
    (l.Enter node).1.Error = l.Error ∧ (l.Enter node).1.s = l.s ∧
    (l.Enter node).1 = { l with text := (l.Enter node).1.text } := by
  cases node with
  | columnDef col => exact absurd rfl (hnode col)
  | other text => rw [Enter_other]; exact ⟨rfl, rfl, rfl, rfl, rfl⟩

/-- Witness of C7: the statement node entered by a rule instance that holds an error. -/
theorem Enter_not_columnDef_witness :
    ((BooleanFieldLinter.mk ⟨⟨"", 0⟩, some (linterror.New ⟨"", 0⟩ "a" "m" "c"), "a"⟩).Enter
        (.other "CREATE TABLE t (id int)")).2.1 = .other "CREATE TABLE t (id int)" ∧
    ((BooleanFieldLinter.mk ⟨⟨"", 0⟩, some (linterror.New ⟨"", 0⟩ "a" "m" "c"), "a"⟩).Enter
        (.other "CREATE TABLE t (id int)")).2.2 = false ∧
    ((BooleanFieldLinter.mk ⟨⟨"", 0⟩, some (linterror.New ⟨"", 0⟩ "a" "m" "c"), "a"⟩).Enter
        (.other "CREATE TABLE t (id int)")).1.Error =
      (BooleanFieldLinter.mk ⟨⟨"", 0⟩, some (linterror.New ⟨"", 0⟩ "a" "m" "c"), "a"⟩).Error ∧
    ((BooleanFieldLinter.mk ⟨⟨"", 0⟩, some (linterror.New ⟨"", 0⟩ "a" "m" "c"), "a"⟩).Enter
        (.other "CREATE TABLE t (id int)")).1.s =
      (BooleanFieldLinter.mk ⟨⟨"", 0⟩, some (linterror.New ⟨"", 0⟩ "a" "m" "c"), "a"⟩).s ∧
    ((BooleanFieldLinter.mk ⟨⟨"", 0⟩, some (linterror.New ⟨"", 0⟩ "a" "m" "c"), "a"⟩).Enter
        (.other "CREATE TABLE t (id int)")).1 =
      { (BooleanFieldLinter.mk ⟨⟨"", 0⟩, some (linterror.New ⟨"", 0⟩ "a" "m" "c"), "a"⟩) with
        text := ((BooleanFieldLinter.mk
          ⟨⟨"", 0⟩, some (linterror.New ⟨"", 0⟩ "a" "m" "c"), "a"⟩).Enter
            (.other "CREATE TABLE t (id int)")).1.text } :=
  Enter_not_columnDef (BooleanFieldLinter.mk ⟨⟨"", 0⟩, some (linterror.New ⟨"", 0⟩ "a" "m" "c"), "a"⟩)
    (.other "CREATE TABLE t (id int)") (by intro col h; cases h)

/-- C8, as stated, fails: a column definition with the empty name and the boolean-ish
extracted type `tinyint(1)` (a `BOOL` column) is not skipped; a fresh rule instance
records the linking-verb violation for it. -/
theorem Enter_empty_name_counterexample :
    ((NewBooleanFieldLinter ⟨"", 0⟩).Enter (.columnDef ⟨"", "", "tinyint(1)"⟩)).1.Error ≠
      none := by
  decide

/-- C8, amended: for a column definition whose extracted name is the empty string, `Enter`
on a fresh rule instance records no violation exactly when the extracted type is none of
`bool`, `boolean`, `tinyint(1)`, `bit`; for one of these types it records the linking-verb
violation, with the empty name. -/
theorem Enter_empty_name (s : script.Script) (col : ast.ColumnDef)
    (hname : ddlconv.ExtractColName col = "") :
    (((NewBooleanFieldLinter s).Enter (.columnDef col)).1.Error = none ↔
      (ddlconv.ExtractColType col ≠ "bool" ∧ ddlconv.ExtractColType col ≠ "boolean" ∧
        ddlconv.ExtractColType col ≠ "tinyint(1)" ∧ ddlconv.ExtractColType col ≠ "bit")) ∧
    (((NewBooleanFieldLinter s).Enter (.columnDef col)).1.Error ≠ none →
      ((NewBooleanFieldLinter s).Enter (.columnDef col)).1.Error.map (fun e => (e.lint, e.colName)) =
        some ("boolean field should start with linking-verb, e.g. is_deleted, has_child", "")) := by
  simp only [ddlconv.ExtractColName] at hname
  have hv : hasLinkingVerb col.name = false := by rw [hname]; decide
  rw [Enter_columnDef]
  simp only [BooleanFieldLinter.Error, hv, ddlconv.ExtractColType]
  cases hb : isBooleanType col.tp
  · have hb2 := hb
    simp only [isBooleanType, Bool.or_eq_false_iff, beq_eq_false_iff_ne, ne_eq] at hb2
    simp [NewBooleanFieldLinter, newBaseLinter, hb2.1.1.1, hb2.1.1.2, hb2.1.2, hb2.2]
  · have hb2 := hb
    simp only [isBooleanType, Bool.or_eq_true, beq_iff_eq] at hb2
    simp [linterror.New, msgLinkingVerb, hname]
    tauto

/-- Witness of C8 at the nameless column typed `tinyint(1)`. -/
theorem Enter_empty_name_witness :
    (((NewBooleanFieldLinter ⟨"", 0⟩).Enter (.columnDef ⟨"", "", "tinyint(1)"⟩)).1.Error = none ↔
      (ddlconv.ExtractColType ⟨"", "", "tinyint(1)"⟩ ≠ "bool" ∧
        ddlconv.ExtractColType ⟨"", "", "tinyint(1)"⟩ ≠ "boolean" ∧
        ddlconv.ExtractColType ⟨"", "", "tinyint(1)"⟩ ≠ "tinyint(1)" ∧
        ddlconv.ExtractColType ⟨"", "", "tinyint(1)"⟩ ≠ "bit")) ∧
    (((NewBooleanFieldLinter ⟨"", 0⟩).Enter (.columnDef ⟨"", "", "tinyint(1)"⟩)).1.Error ≠ none →
      ((NewBooleanFieldLinter ⟨"", 0⟩).Enter (.columnDef ⟨"", "", "tinyint(1)"⟩)).1.Error.map
          (fun e => (e.lint, e.colName)) =
        some ("boolean field should start with linking-verb, e.g. is_deleted, has_child", "")) :=
  Enter_empty_name ⟨"", 0⟩ ⟨"", "", "tinyint(1)"⟩ (by decide)

/-- C9: for every rule state and node, `Leave` returns the node unchanged together with a
boolean that is `true` if and only if `Error()` is nil, and leaves the rule state, so the
recorded error and the checkpoint, as it was. -/
theorem Leave_result (l : BooleanFieldLinter) (node : ast.Node) :
    (l.Leave node).2.1 = node ∧
    ((l.Leave node).2.2 = true ↔ l.Error = none) ∧
    (l.Leave node).1.Error = l.Error ∧ (l.Leave node).1.text = l.text ∧ (l.Leave node).1 = l := by
  refine ⟨rfl, ?_, rfl, rfl, rfl⟩
  simp [BooleanFieldLinter.Leave, BooleanFieldLinter.Error, Option.isNone_iff_eq_none]

/-- C11: checkpoint maintenance on `Enter`.  With checkpoint `t` before the call and node
text `s`, the checkpoint after the call is `s` when `t` is empty or `s` is non-empty and `t`
otherwise; equivalently it is `s` when `s` is non-empty and `t` when `s` is empty.  On a
violating column definition the violation recorded by the call carries that updated
checkpoint as its text window; on every other node the call records nothing. -/
theorem Enter_checkpoint (l : BooleanFieldLinter) (node : ast.Node) :
    (l.Enter node).1.text = (if l.text = "" ∨ node.Text ≠ "" then node.Text else l.text) ∧
    (l.Enter node).1.text = (if node.Text ≠ "" then node.Text else l.text) ∧
    (match node with
      | .other _ => (l.Enter node).1.Error = l.Error
      | .columnDef col =>
        if (isBooleanType (ddlconv.ExtractColType col) &&
              !hasLinkingVerb (ddlconv.ExtractColName col)) ||
            (hasLinkingVerb (ddlconv.ExtractColName col) &&
              !isBooleanType (ddlconv.ExtractColType col)) then
          (l.Enter node).1.Error.map (fun e => e.stmt) = some (l.Enter node).1.text
        else (l.Enter node).1.Error = l.Error) := by
  have hck : checkpointAfter l node =
      (if l.text = "" ∨ node.Text ≠ "" then node.Text else l.text) := by
    unfold checkpointAfter
    by_cases h1 : l.text = "" <;> by_cases h2 : node.Text = "" <;> simp [h1, h2]
  have heq : (if l.text = "" ∨ node.Text ≠ "" then node.Text else l.text) =
      (if node.Text ≠ "" then node.Text else l.text) := by
    by_cases h1 : l.text = "" <;> by_cases h2 : node.Text = "" <;> simp [h1, h2]
  cases node with
  | other text =>
    rw [Enter_other]
    exact ⟨hck, hck.trans heq, rfl⟩
  | columnDef col =>
    rw [Enter_columnDef]
    refine ⟨hck, hck.trans heq, ?_⟩
    simp only [ddlconv.ExtractColName, ddlconv.ExtractColType, BooleanFieldLinter.Error]
    cases isBooleanType col.tp <;> cases hasLinkingVerb col.name <;> simp [linterror.New]

end linters

/-! ## Properties of the xmind topic construction -/

namespace xmind

/-- The loop finds nothing exactly when no topic of the list has the title. -/
theorem findTitle_eq_none (title : String) (topics : List XMLTopic) :
    findTitle title topics = none ↔ topics.any (fun c => c.Title == title) = false := by
  induction topics with
  | nil => simp [findTitle]
  | cons topic rest ih =>
    by_cases h : (topic.Title == title) = true
    · simp [findTitle, h]
    · simp only [Bool.not_eq_true] at h
      simp [findTitle, h, ih]

/-- What the loop finds is the position of the first topic that has the title. -/
theorem findTitle_eq_some (title : String) (topics : List XMLTopic) (i : Nat)
    (h : findTitle title topics = some i) :
    i = topics.findIdx (fun c => c.Title == title) ∧
      (topics[i]?).map XMLTopic.Title = some title := by
  induction topics generalizing i with
  | nil => simp [findTitle] at h
  | cons topic rest ih =>
    by_cases hc : (topic.Title == title) = true
    · simp only [findTitle, hc, if_true, Option.some.injEq] at h
      subst h
      have ht : topic.Title = title := by simpa using hc
      simp [List.findIdx_cons, hc, ht]
    · simp only [Bool.not_eq_true] at hc
      simp only [findTitle, hc, Bool.false_eq_true, if_false, Option.map_eq_some'] at h
      obtain ⟨j, hj, rfl⟩ := h
      obtain ⟨h1, h2⟩ := ih j hj
      refine ⟨?_, ?_⟩
      · simp [List.findIdx_cons, hc, ← h1]
      · simpa using h2

/-- The method `addChildTopic` in terms of the topic's list of children. -/
theorem addChildTopic_eq (t : XMLTopic) (title : String) (topicType : XMLTopicType)
    (ignoreIfExist : Bool) :
    t.addChildTopic title topicType ignoreIfExist =
      match (if ignoreIfExist then findTitle title t.childTopics else none) with
      | some i => (.mk t.Title (some (.mk (some (.mk topicType t.childTopics)))), i)
      | none =>
        (.mk t.Title (some (.mk (some (.mk topicType (t.childTopics ++ [.mk title none]))))),
          t.childTopics.length) := by
  obtain ⟨ttl, children⟩ := t
  cases children with
  | none => rfl
  | some c =>
    obtain ⟨typed⟩ := c
    cases typed with
    | none => rfl
    | some tt =>
      obtain ⟨ty0, topics⟩ := tt
      rfl

/-- Reading back the children, their type and the title of a topic whose pointers are
all set. -/
theorem childTopics_mk (ttl : String) (ty : XMLTopicType) (topics : List XMLTopic) :
    (XMLTopic.mk ttl (some (.mk (some (.mk ty topics))))).childTopics = topics ∧
    (XMLTopic.mk ttl (some (.mk (some (.mk ty topics))))).childType = some ty ∧
    (XMLTopic.mk ttl (some (.mk (some (.mk ty topics))))).Title = ttl :=
  ⟨rfl, rfl, rfl⟩

/-- C10, as stated, fails: with `ignoreIfExist` set and a child titled `a` present,
`addChildTopic` of the title `a` leaves the topic with its one child instead of two and
returns the child that was there. -/
theorem addChildTopic_existing_counterexample :
    (XMLTopic.mk "root" (some (.mk (some (.mk "attached" [.mk "a" none]))))).childTopics.length = 1 ∧
    ((XMLTopic.mk "root" (some (.mk (some (.mk "attached" [.mk "a" none]))))).addChildTopic
        "a" "attached" true).1.childTopics.length ≠
      (XMLTopic.mk "root" (some (.mk (some (.mk "attached" [.mk "a" none]))))).childTopics.length + 1 ∧
    ((XMLTopic.mk "root" (some (.mk (some (.mk "attached" [.mk "a" none]))))).addChildTopic
        "a" "attached" true).2 = 0 := by
  decide

/-- C10, amended: `addChildTopic` sets the type attribute of the children and returns a
child with the given title.  When `ignoreIfExist` is false, or no child has that title, it
appends exactly one new childless topic with the title at the end of the children and
returns it; when `ignoreIfExist` is true and a child with that title exists, it returns the
first such child and leaves the list of children as it was. -/
theorem addChildTopic_result (t : XMLTopic) (title : String) (topicType : XMLTopicType)
    (ignoreIfExist : Bool) :
    (t.addChildTopic title topicType ignoreIfExist).1.Title = t.Title ∧
    (t.addChildTopic title topicType ignoreIfExist).1.childType = some topicType ∧
    ((t.addChildTopic title topicType ignoreIfExist).1.childTopics[
        (t.addChildTopic title topicType ignoreIfExist).2]?).map XMLTopic.Title = some title ∧
    (if ignoreIfExist && t.childTopics.any (fun c => c.Title == title) then
      (t.addChildTopic title topicType ignoreIfExist).1.childTopics = t.childTopics ∧
      (t.addChildTopic title topicType ignoreIfExist).2 =
        t.childTopics.findIdx (fun c => c.Title == title)
    else
      (t.addChildTopic title topicType ignoreIfExist).1.childTopics =
        t.childTopics ++ [XMLTopic.mk title none] ∧
      (t.addChildTopic title topicType ignoreIfExist).2 = t.childTopics.length) := by
  rw [addChildTopic_eq]
  cases ignoreIfExist with
  | false =>
    refine ⟨rfl, rfl, ?_, ?_⟩
    · show ((t.childTopics ++ [XMLTopic.mk title none])[t.childTopics.length]?).map
        XMLTopic.Title = some title
      simp [XMLTopic.Title]
    · rw [if_neg (by simp)]
      exact ⟨rfl, rfl⟩
  | true =>
    cases hf : findTitle title t.childTopics with
    | none =>
      have hany := (findTitle_eq_none title t.childTopics).mp hf
      refine ⟨rfl, rfl, ?_, ?_⟩
      · show ((t.childTopics ++ [XMLTopic.mk title none])[t.childTopics.length]?).map
          XMLTopic.Title = some title
        simp [XMLTopic.Title]
      · rw [if_neg (by simp [hany])]
        exact ⟨rfl, rfl⟩
    | some i =>
      have hany : t.childTopics.any (fun c => c.Title == title) = true := by
        cases hb : t.childTopics.any (fun c => c.Title == title) with
        | true => rfl
        | false =>
          rw [(findTitle_eq_none title t.childTopics).mpr hb] at hf
          cases hf
      obtain ⟨h1, h2⟩ := findTitle_eq_some title t.childTopics i hf
      refine ⟨rfl, rfl, h2, ?_⟩
      rw [if_pos (by simp only [hany, Bool.and_self])]
      exact ⟨rfl, h1⟩

/-- The type attribute after `addChildTopic` is the one passed. -/
theorem addChildTopic_childType (t : XMLTopic) (title : String) (topicType : XMLTopicType)
    (ignoreIfExist : Bool) :
    (t.addChildTopic title topicType ignoreIfExist).1.childType = some topicType := by
  rw [addChildTopic_eq]
  cases (if ignoreIfExist then findTitle title t.childTopics else none) <;> rfl

/-- Without the flag, or without a child of that title, `addChildTopic` appends. -/
theorem addChildTopic_appends (t : XMLTopic) (title : String) (topicType : XMLTopicType)
    (ignoreIfExist : Bool)
    (h : (ignoreIfExist && t.childTopics.any (fun c => c.Title == title)) = false) :
    (t.addChildTopic title topicType ignoreIfExist).1.childTopics =
        t.childTopics ++ [XMLTopic.mk title none] ∧
      (t.addChildTopic title topicType ignoreIfExist).2 = t.childTopics.length := by
  have hnone : (if ignoreIfExist then findTitle title t.childTopics else none) = none := by
    cases ignoreIfExist with
    | false => rfl
    | true =>
      simp only [Bool.true_and] at h
      simpa using (findTitle_eq_none title t.childTopics).mpr h
  rw [addChildTopic_eq, hnone]
  exact ⟨rfl, rfl⟩

/-- With the flag and a child of that title, `addChildTopic` returns the first such child
and keeps the children. -/
theorem addChildTopic_finds (t : XMLTopic) (title : String) (topicType : XMLTopicType)
    (h : t.childTopics.any (fun c => c.Title == title) = true) :
    (t.addChildTopic title topicType true).1.childTopics = t.childTopics ∧
      (t.addChildTopic title topicType true).2 =
        t.childTopics.findIdx (fun c => c.Title == title) := by
  rw [addChildTopic_eq]
  cases hf : findTitle title t.childTopics with
  | none =>
    rw [(findTitle_eq_none title t.childTopics).mp hf] at h
    cases h
  | some i => exact ⟨rfl, (findTitle_eq_some title t.childTopics i hf).1⟩

/-- In a list none of whose elements satisfies `p`, followed by one that does, the first
position that satisfies `p` is the last one. -/
theorem findIdx_append_singleton {α : Type} (p : α → Bool) (xs : List α) (a : α)
    (hxs : xs.any p = false) (ha : p a = true) :
    (xs ++ [a]).findIdx p = xs.length := by
  induction xs with
  | nil => simp [List.findIdx_cons, ha]
  | cons x rest ih =>
    simp only [List.any_cons, Bool.or_eq_false_iff] at hxs
    simp [List.findIdx_cons, hxs.1, ih hxs.2]

/-- The child that `addChildTopic` returns has the given title. -/
theorem addChildTopic_returns_title (t : XMLTopic) (title : String) (topicType : XMLTopicType)
    (ignoreIfExist : Bool) :
    ((t.addChildTopic title topicType ignoreIfExist).1.childTopics[
        (t.addChildTopic title topicType ignoreIfExist).2]?).map XMLTopic.Title = some title := by
  cases hb : (ignoreIfExist && t.childTopics.any (fun c => c.Title == title)) with
  | false =>
    obtain ⟨h1, h2⟩ := addChildTopic_appends t title topicType ignoreIfExist hb
    rw [h1, h2]
    simp [XMLTopic.Title]
  | true =>
    simp only [Bool.and_eq_true] at hb
    obtain ⟨hi, hany⟩ := hb
    subst hi
    rw [addChildTopic_eq]
    cases hf : findTitle title t.childTopics with
    | none =>
      rw [(findTitle_eq_none title t.childTopics).mp hf] at hany
      cases hany
    | some i => exact (findTitle_eq_some title t.childTopics i hf).2

/-- Called without a flag, `AddAttachedChildTopic` is `addChildTopic` with
`ignoreIfExist = false`; called with at least one flag, of whatever value, it is
`addChildTopic` with `ignoreIfExist = true`. -/
theorem AddAttachedChildTopic_eq (t : XMLTopic) (title : String) (flags : List Bool) :
    t.AddAttachedChildTopic title flags =
      t.addChildTopic title TopicsTypeAttached (decide (0 < flags.length)) := by
  cases flags with
  | nil => rfl
  | cons f rest =>
    simp [XMLTopic.AddAttachedChildTopic]

/-- C12: `AddAttachedChildTopic` deduplicates exactly when at least one `ignoreIfExist`
argument is passed, whatever the values of the flags.  With a flag and an existing child of
the same title it returns the first such child and leaves the children unchanged, so a
repeated call with a flag changes neither the children nor the child returned; otherwise,
in particular with no flag, it appends one new child with that title and returns it.  In
every case the type attribute of the children is `attached` and the returned child has the
title. -/
theorem AddAttachedChildTopic_result (t : XMLTopic) (title : String) (flags : List Bool)
    (f1 f2 : Bool) (rest1 rest2 : List Bool) :
    (t.AddAttachedChildTopic title flags).1.childType = some "attached" ∧
    ((t.AddAttachedChildTopic title flags).1.childTopics[
        (t.AddAttachedChildTopic title flags).2]?).map XMLTopic.Title = some title ∧
    (if 0 < flags.length ∧ t.childTopics.any (fun c => c.Title == title) = true then
      (t.AddAttachedChildTopic title flags).1.childTopics = t.childTopics ∧
      (t.AddAttachedChildTopic title flags).2 =
        t.childTopics.findIdx (fun c => c.Title == title)
    else
      (t.AddAttachedChildTopic title flags).1.childTopics =
        t.childTopics ++ [XMLTopic.mk title none] ∧
      (t.AddAttachedChildTopic title flags).2 = t.childTopics.length) ∧
    ((t.AddAttachedChildTopic title (f1 :: rest1)).1.AddAttachedChildTopic title
        (f2 :: rest2)).1.childTopics =
      (t.AddAttachedChildTopic title (f1 :: rest1)).1.childTopics ∧
    ((t.AddAttachedChildTopic title (f1 :: rest1)).1.AddAttachedChildTopic title
        (f2 :: rest2)).2 =
      (t.AddAttachedChildTopic title (f1 :: rest1)).2 := by
  have hcons : ∀ (u : XMLTopic) (f : Bool) (rest : List Bool),
      u.AddAttachedChildTopic title (f :: rest) =
        u.addChildTopic title TopicsTypeAttached true := by
    intro u f rest
    rw [AddAttachedChildTopic_eq]
    simp
  refine ⟨?_, ?_, ?_, ?_⟩
  · rw [AddAttachedChildTopic_eq]
    exact addChildTopic_childType t title TopicsTypeAttached _
  · rw [AddAttachedChildTopic_eq]
    exact addChildTopic_returns_title t title TopicsTypeAttached _
  · rw [AddAttachedChildTopic_eq]
    by_cases hc : 0 < flags.length ∧ t.childTopics.any (fun c => c.Title == title) = true
    · rw [if_pos hc]
      have hd : decide (0 < flags.length) = true := by simpa using hc.1
      rw [hd]
      exact addChildTopic_finds t title TopicsTypeAttached hc.2
    · rw [if_neg hc]
      apply addChildTopic_appends
      cases hl : decide (0 < flags.length) with
      | false => rfl
      | true =>
        have hpos : 0 < flags.length := by simpa using hl
        cases ha : t.childTopics.any (fun c => c.Title == title) with
        | false => rfl
        | true => exact absurd ⟨hpos, ha⟩ hc
  · rw [hcons, hcons]
    cases ha : t.childTopics.any (fun c => c.Title == title) with
    | true =>
      obtain ⟨h1, h2⟩ := addChildTopic_finds t title TopicsTypeAttached ha
      have ha1 : (t.addChildTopic title TopicsTypeAttached true).1.childTopics.any
          (fun c => c.Title == title) = true := by rw [h1]; exact ha
      obtain ⟨k1, k2⟩ :=
        addChildTopic_finds (t.addChildTopic title TopicsTypeAttached true).1 title
          TopicsTypeAttached ha1
      exact ⟨k1, by rw [k2, h1, h2]⟩
    | false =>
      obtain ⟨h1, h2⟩ := addChildTopic_appends t title TopicsTypeAttached true (by simp [ha])
      have ha1 : (t.addChildTopic title TopicsTypeAttached true).1.childTopics.any
          (fun c => c.Title == title) = true := by
        rw [h1]
        simp [XMLTopic.Title]
      obtain ⟨k1, k2⟩ :=
        addChildTopic_finds (t.addChildTopic title TopicsTypeAttached true).1 title
          TopicsTypeAttached ha1
      refine ⟨k1, ?_⟩
      rw [k2, h1, h2]
      exact findIdx_append_singleton _ _ _ ha (by simp [XMLTopic.Title])

end xmind
